import Mathlib

/-!
Verification development for the code-generation orchestration layer of
`aliri_braid_impl` (`src/codegen/mod.rs`).

The embedding models the data flowing through `Params::parse`,
`Params::build` and `CodeGen::generate`:

* identifiers and type tokens are lists of characters (`Name`);
* `syn::Lit` is restricted to the shapes the code inspects (`Lit`);
* `syn::NestedMeta` configuration entries are the four shapes matched by
  `Params::parse` (`Entry`);
* `syn::Error` is modelled by its message string, so every fallible
  operation returns `Except String _`.

The sibling modules `check_mode.rs`, `impls.rs` and `symbol.rs` are not part
of the sources; the definitions taken from them are marked
`Modelled from the spec:` and follow the specification's wording.
-/

namespace Codegen

/-- Identifiers and type tokens, modelled as lists of characters. -/
abbrev Name := List Char

/-- Literal values (`syn::Lit`), restricted to the shapes the code inspects:
string literals and one representative non-string shape. -/
inductive Lit where
  | str (s : String)
  | int (n : Nat)
deriving DecidableEq

/-- Opaque nested attribute content (`syn::NestedMeta` inside a
`reference-attr`/`owned-attr` list), passed through verbatim. -/
abbrev Attr := String

/-- One raw configuration entry (`syn::NestedMeta`): `Meta::NameValue`,
`Meta::Path`, `Meta::List`, or a bare literal. -/
inductive Entry where
  | nameValue (key : String) (l : Lit)
  | path (key : String)
  | metaList (key : String) (nested : List Attr)
  | lit (l : Lit)
deriving DecidableEq

/-- Modelled from the spec: the attribute-symbol table (`symbol.rs`) is not
under `src/`; it is consumed as a fixed vocabulary of recognized option
names. The concrete spellings are irrelevant to the claims; only their
distinctness matters. -/
def REF : String := "ref"

/-- Recognized key for the validator option. -/
def VALIDATOR : String := "validator"

/-- Recognized key for the normalizer option. -/
def NORMALIZER : String := "normalizer"

/-- Recognized key for reference-type documentation lines. -/
def REF_DOC : String := "ref_doc"

/-- Recognized key for reference-side passthrough attributes. -/
def REF_ATTR : String := "ref_attr"

/-- Recognized key for owned-side passthrough attributes. -/
def OWNED_ATTR : String := "owned_attr"

/-- Recognized key for the diagnostic-format capability policy. -/
def DEBUG : String := "debug"

/-- Recognized key for the display-format capability policy. -/
def DISPLAY : String := "display"

/-- Recognized key for the duplication capability policy. -/
def CLONE : String := "clone"

/-- Recognized key for the serialization capability policy. -/
def SERDE : String := "serde"

/-- Modelled from the spec: `symbol.rs` (`parse_lit_into_type`) is not under
`src/`. A string literal parses into a type token; any other literal shape
is rejected with an error naming the key. The model treats every string as
a well-formed type token. -/
def parse_lit_into_type (key : String) (l : Lit) : Except String Name :=
  match l with
  | .str s => .ok s.toList
  | _ => .error ("expected string literal for `" ++ key ++ "`")

/-- Modelled from the spec: `symbol.rs` (`parse_lit_into_string`) is not
under `src/`. A string literal yields its contents; any other literal shape
is rejected with an error naming the key. -/
def parse_lit_into_string (key : String) (l : Lit) : Except String String :=
  match l with
  | .str s => .ok s
  | _ => .error ("expected string literal for `" ++ key ++ "`")

/-- Modelled from the spec: `impls.rs` is not under `src/`. A delegating
capability policy (diagnostic/display formatting) is one of off,
delegate-to-owned, delegate-to-borrowed, implement. -/
inductive DelegatingImplOption where
  | off
  | delegateToOwned
  | delegateToBorrowed
  | implement
deriving DecidableEq

/-- Modelled from the spec: parsing of a delegating capability-policy
literal; an unrecognized value is an invalid-policy-literal error. -/
def DelegatingImplOption.fromStr (s : String) : Except String DelegatingImplOption :=
  if s = "off" then .ok .off
  else if s = "delegate-to-owned" then .ok .delegateToOwned
  else if s = "delegate-to-borrowed" then .ok .delegateToBorrowed
  else if s = "implement" then .ok .implement
  else .error ("invalid policy literal `" ++ s ++ "`")

/-- Modelled from the spec: `impls.rs` is not under `src/`. A non-delegating
capability policy (duplication/serialization) is one of off, implement. -/
inductive ImplOption where
  | off
  | implement
deriving DecidableEq

/-- Modelled from the spec: parsing of a non-delegating capability-policy
literal; an unrecognized value is an invalid-policy-literal error. -/
def ImplOption.fromStr (s : String) : Except String ImplOption :=
  if s = "off" then .ok .off
  else if s = "implement" then .ok .implement
  else .error ("invalid policy literal `" ++ s ++ "`")

/-- Modelled from the spec: `impls.rs` is not under `src/`. The capability
policy record: diagnostic formatting, display formatting, duplication and
serialization, each independently settable. -/
@[ext]
structure Impls where
  debug : DelegatingImplOption
  display : DelegatingImplOption
  clone : ImplOption
  serde : ImplOption
deriving DecidableEq

/-- Modelled from the spec: the default capability policy implements every
capability appropriately for its position. -/
def Impls.default : Impls :=
  { debug := .implement, display := .implement, clone := .implement, serde := .implement }

/-- Modelled from the spec: `check_mode.rs` is not under `src/`. The
check-mode-in-progress: validator and normalizer identities, each
unset (`none`), explicitly absent / use-the-default (`some none`), or set
to a type (`some (some t)`). -/
@[ext]
structure IndefiniteCheckMode where
  validator : Option (Option Name)
  normalizer : Option (Option Name)
deriving DecidableEq

/-- Modelled from the spec: conflict error identifying the duplicated key,
raised when a scalar check-mode option is set a second time. -/
def conflictMsg (key : String) : String :=
  "duplicate `" ++ key ++ "` argument"

/-- Modelled from the spec: setting the validator fails with a conflict
error when it was already set (in either form). -/
def IndefiniteCheckMode.try_set_validator (cm : IndefiniteCheckMode) (v : Option Name) :
    Except String IndefiniteCheckMode :=
  match cm.validator with
  | none => .ok { cm with validator := some v }
  | some _ => .error (conflictMsg VALIDATOR)

/-- Modelled from the spec: setting the normalizer fails with a conflict
error when it was already set (in either form). -/
def IndefiniteCheckMode.try_set_normalizer (cm : IndefiniteCheckMode) (n : Option Name) :
    Except String IndefiniteCheckMode :=
  match cm.normalizer with
  | none => .ok { cm with normalizer := some n }
  | some _ => .error (conflictMsg NORMALIZER)

/-- Parsed configuration (`Params` in `mod.rs`): optional explicit reference
type, reference docs, reference/owned passthrough attributes, the
check-mode-in-progress and the capability policies. -/
structure Params where
  ref_ty : Option Name
  ref_doc : List Lit
  ref_attrs : List Attr
  owned_attrs : List Attr
  check_mode : IndefiniteCheckMode
  impls : Impls
deriving DecidableEq

/-- Default `Params` (`impl Default for Params` in `mod.rs`): everything
empty/unset. -/
def Params.default : Params :=
  { ref_ty := none
    ref_doc := []
    ref_attrs := []
    owned_attrs := []
    check_mode := { validator := none, normalizer := none }
    impls := Impls.default }

/-- One iteration of the argument loop in `Params::parse`: the match over a
single `syn::NestedMeta`, in the source's arm order. Within a constructor
the recognized keys are pairwise distinct, so the if-chain reproduces the
source's first-match semantics. -/
def Params.parseArg (params : Params) (arg : Entry) : Except String Params :=
  match arg with
  | .nameValue key l =>
    if key = REF then
      match parse_lit_into_type REF l with
      | .ok t => .ok { params with ref_ty := some t }
      | .error e => .error e
    else if key = VALIDATOR then
      match parse_lit_into_type VALIDATOR l with
      | .ok v =>
        match params.check_mode.try_set_validator (some v) with
        | .ok cm => .ok { params with check_mode := cm }
        | .error e => .error e
      | .error e => .error e
    else if key = NORMALIZER then
      match parse_lit_into_type NORMALIZER l with
      | .ok n =>
        match params.check_mode.try_set_normalizer (some n) with
        | .ok cm => .ok { params with check_mode := cm }
        | .error e => .error e
      | .error e => .error e
    else if key = REF_DOC then
      .ok { params with ref_doc := params.ref_doc ++ [l] }
    else if key = DEBUG then
      match parse_lit_into_string DEBUG l with
      | .ok s =>
        match DelegatingImplOption.fromStr s with
        | .ok o => .ok { params with impls := { params.impls with debug := o } }
        | .error e => .error e
      | .error e => .error e
    else if key = DISPLAY then
      match parse_lit_into_string DISPLAY l with
      | .ok s =>
        match DelegatingImplOption.fromStr s with
        | .ok o => .ok { params with impls := { params.impls with display := o } }
        | .error e => .error e
      | .error e => .error e
    else if key = CLONE then
      match parse_lit_into_string CLONE l with
      | .ok s =>
        match ImplOption.fromStr s with
        | .ok o => .ok { params with impls := { params.impls with clone := o } }
        | .error e => .error e
      | .error e => .error e
    else if key = SERDE then
      match parse_lit_into_string SERDE l with
      | .ok s =>
        match ImplOption.fromStr s with
        | .ok o => .ok { params with impls := { params.impls with serde := o } }
        | .error e => .error e
      | .error e => .error e
    else
      .error ("unsupported argument `" ++ key ++ "`")
  | .path key =>
    if key = SERDE then
      .ok { params with impls := { params.impls with serde := .implement } }
    else if key = VALIDATOR then
      match params.check_mode.try_set_validator none with
      | .ok cm => .ok { params with check_mode := cm }
      | .error e => .error e
    else if key = NORMALIZER then
      match params.check_mode.try_set_normalizer none with
      | .ok cm => .ok { params with check_mode := cm }
      | .error e => .error e
    else
      .error ("unsupported argument `" ++ key ++ "`")
  | .metaList key nested =>
    if key = REF_ATTR then
      .ok { params with ref_attrs := params.ref_attrs ++ nested }
    else if key = OWNED_ATTR then
      .ok { params with owned_attrs := params.owned_attrs ++ nested }
    else
      .error "unsupported argument"
  | .lit _ => .error "unsupported argument"

/-- The argument loop of `Params::parse`, folding entries into the record
and aborting on the first error. -/
def Params.parseFrom : Params → List Entry → Except String Params
  | params, [] => .ok params
  | params, arg :: rest =>
    match params.parseArg arg with
    | .ok p => Params.parseFrom p rest
    | .error e => .error e

/-- `Params::parse`: fold the raw attribute entries into a `Params` record
starting from the default. -/
def Params.parse (args : List Entry) : Except String Params :=
  Params.parseFrom Params.default args

/-- Resolved check mode (`CheckMode` in `check_mode.rs`, whose variants are
named by the spec): no checking, validate only, normalize (implies
validate), or validate and normalize. -/
inductive CheckMode where
  | none
  | validate (validator : Name)
  | normalize (normalizer : Name)
  | validateAndNormalize (validator normalizer : Name)
deriving DecidableEq

/-- Modelled from the spec: `check_mode.rs` is not under `src/`; the fixed
naming convention deriving the default validator from the owned type's
identity is unspecified, so the model uses the owned type's own name. -/
def infer_validator_from_owned_name (owned : Name) : Name := owned

/-- Modelled from the spec: the default normalizer inferred from the owned
type's identity when the bare `normalizer` key is used. -/
def infer_normalizer_from_owned_name (owned : Name) : Name := owned

/-- Modelled from the spec: `IndefiniteCheckMode::infer_validator_if_missing`
(`check_mode.rs` is not under `src/`). Both unset gives `None`; validator
set and normalizer unset gives `Validate`; any set normalizer gives
`ValidateAndNormalize`, inferring a validator from the owned type's
identity whenever the validator is unset or explicitly absent (normalized
output must always pass some validation). -/
def IndefiniteCheckMode.infer_validator_if_missing
    (cm : IndefiniteCheckMode) (owned : Name) : CheckMode :=
  match cm.normalizer with
  | some n =>
    .validateAndNormalize
      ((cm.validator.join).getD (infer_validator_from_owned_name owned))
      (n.getD (infer_normalizer_from_owned_name owned))
  | none =>
    match cm.validator with
    | none => .none
    | some v => .validate (v.getD (infer_validator_from_owned_name owned))

/-- One declared field of the user's struct (`syn::Field`): attributes,
optional identifier, type. -/
structure SynField where
  attrs : List Attr
  ident : Option Name
  ty : Name
deriving DecidableEq

/-- The user's type declaration (`syn::ItemStruct`): attributes, visibility,
identity and field list. The named/unnamed/unit distinction of
`syn::Fields` is carried by each field's optional identifier. -/
structure ItemStruct where
  attrs : List Attr
  vis : String
  ident : Name
  fields : List SynField
deriving DecidableEq

/-- Name of the resolved wrapped field (`FieldName` in `mod.rs`). -/
inductive FieldName where
  | named (n : Name)
  | unnamed
deriving DecidableEq

/-- The resolved wrapped field (`Field` in `mod.rs`). -/
structure Field where
  attrs : List Attr
  name : FieldName
  ty : Name
deriving DecidableEq

/-- `create_field_if_none` in `mod.rs`: an empty field list is replaced by a
single synthesized unnamed field of the generic string type `String`
(`syn::Type::Verbatim("String")`, no attributes, inherited visibility). -/
def create_field_if_none (fields : List SynField) : List SynField :=
  if fields.isEmpty then
    [{ attrs := [], ident := none, ty := "String".toList }]
  else
    fields

/-- `get_field_info` in `mod.rs`: take the first field and fail when a
second one exists. The source unwraps the first element (the empty case is
unreachable because `Params::build` synthesizes a field first); the model
returns an error there. -/
def get_field_info (fields : List SynField) :
    Except String (Name × Option Name × List Attr) :=
  match fields with
  | [] => .error "internal: no fields"
  | [f] => .ok (f.ty, f.ident, f.attrs)
  | _ :: _ :: _ => .error "typed string can only have one field"

/-- `infer_ref_type_from_owned_name` in `mod.rs`: strip a trailing `Buf`
(three characters), otherwise append `Ref`. The source slices off the last
three bytes; since `Buf` is ASCII this equals dropping the last three
characters. -/
def infer_ref_type_from_owned_name (name : Name) : Name :=
  if "Buf".toList.isSuffixOf name then
    name.take (name.length - 3)
  else
    name ++ "Ref".toList

/-- Default reference documentation synthesized in `Params::build` when no
`reference-doc` entry was given. -/
def default_ref_doc (owned : Name) : Lit :=
  .str ("A reference to a borrowed [`" ++ String.mk owned ++ "`]")

/-- Fully resolved generation context (`CodeGen` in `mod.rs`). The `body`
field holds the declaration after the in-place synthesis of a default
field. -/
structure CodeGen where
  check_mode : CheckMode
  body : ItemStruct
  field : Field
  owned_attrs : List Attr
  ref_doc : List Lit
  ref_attrs : List Attr
  ref_ty : Name
  impls : Impls
deriving DecidableEq

/-- `Params::build` in `mod.rs`: synthesize a default field if the
declaration has none, extract the single field's info (failing on more than
one field), default the reference documentation, resolve the reference type
and the check mode, and assemble the `CodeGen` context. -/
def Params.build (params : Params) (body : ItemStruct) : Except String CodeGen :=
  let fields := create_field_if_none body.fields
  let body := { body with fields := fields }
  match get_field_info body.fields with
  | .error e => .error e
  | .ok (wrapped_type, field_ident, field_attrs) =>
    let owned_ty := body.ident
    let ref_doc :=
      if params.ref_doc.isEmpty then [default_ref_doc owned_ty] else params.ref_doc
    let ref_ty := params.ref_ty.getD (infer_ref_type_from_owned_name owned_ty)
    let check_mode := params.check_mode.infer_validator_if_missing owned_ty
    let field : Field :=
      { attrs := field_attrs
        name := field_ident.elim FieldName.unnamed FieldName.named
        ty := wrapped_type }
    .ok
      { check_mode := check_mode
        body := body
        field := field
        owned_attrs := params.owned_attrs
        ref_doc := ref_doc
        ref_attrs := params.ref_attrs
        ref_ty := ref_ty
        impls := params.impls }

/-- Output of one sub-generator's `tokens()` call, modelled as an opaque-token
list. -/
abbrev TokenStream := List String

/-- The owned-side generation context (`OwnedCodeGen`), as assembled by
`CodeGen::owned`. -/
structure OwnedCodeGen where
  common_attrs : List Attr
  check_mode : CheckMode
  body : ItemStruct
  field : Field
  attrs : List Attr
  ty : Name
  ref_ty : Name
  impls : Impls
deriving DecidableEq

/-- The borrowed-side generation context (`RefCodeGen`), as assembled by
`CodeGen::borrowed`. -/
structure RefCodeGen where
  doc : List Lit
  common_attrs : List Attr
  check_mode : CheckMode
  vis : String
  field : Field
  attrs : List Attr
  ty : Name
  ident : Name
  owned_ty : Name
  impls : Impls
deriving DecidableEq

/-- `CodeGen::owned` in `mod.rs`. -/
def CodeGen.owned (cg : CodeGen) : OwnedCodeGen :=
  { common_attrs := cg.body.attrs
    check_mode := cg.check_mode
    body := cg.body
    field := cg.field
    attrs := cg.owned_attrs
    ty := cg.body.ident
    ref_ty := cg.ref_ty
    impls := cg.impls }

/-- `CodeGen::borrowed` in `mod.rs`. The identifier is rebuilt from the
reference type's token string. -/
def CodeGen.borrowed (cg : CodeGen) : RefCodeGen :=
  { doc := cg.ref_doc
    common_attrs := cg.body.attrs
    check_mode := cg.check_mode
    vis := cg.body.vis
    field := cg.field
    attrs := cg.ref_attrs
    ty := cg.ref_ty
    ident := cg.ref_ty
    owned_ty := cg.body.ident
    impls := cg.impls }

/-- `CodeGen::generate` in `mod.rs`: emit the owned bundle's tokens followed
by the borrowed bundle's tokens. The two sub-generators' `tokens()`
implementations (`owned.rs`, `borrowed.rs`) are external collaborators and
are taken as parameters. -/
def CodeGen.generate (ownedTokens : OwnedCodeGen → TokenStream)
    (refTokens : RefCodeGen → TokenStream) (cg : CodeGen) : TokenStream :=
  ownedTokens cg.owned ++ refTokens cg.borrowed

/-- Result-equality decision procedure for `Except`, used to evaluate the
parser and builder on concrete inputs. -/
instance {ε α : Type} [DecidableEq ε] [DecidableEq α] : DecidableEq (Except ε α) := fun a b =>
  match a, b with
  | .ok x, .ok y =>
    if h : x = y then .isTrue (by rw [h]) else .isFalse (by intro hc; cases hc; exact h rfl)
  | .error x, .error y =>
    if h : x = y then .isTrue (by rw [h]) else .isFalse (by intro hc; cases hc; exact h rfl)
  | .ok _, .error _ => .isFalse (by intro hc; cases hc)
  | .error _, .ok _ => .isFalse (by intro hc; cases hc)

/-- Observer: the documentation lines a single entry contributes. -/
def docOf : Entry → List Lit
  | .nameValue key l => if key = REF_DOC then [l] else []
  | _ => []

/-- Observer: the reference-side attributes a single entry contributes. -/
def refAttrsOf : Entry → List Attr
  | .metaList key nested => if key = REF_ATTR then nested else []
  | _ => []

/-- Observer: the owned-side attributes a single entry contributes. -/
def ownedAttrsOf : Entry → List Attr
  | .metaList key nested => if key = OWNED_ATTR then nested else []
  | _ => []

/-- Observer: the total effect of one entry on the explicit reference type. -/
def stepRefTy (acc : Option Name) (e : Entry) : Option Name :=
  match e with
  | .nameValue key l =>
    if key = REF then
      match parse_lit_into_type REF l with
      | .ok t => some t
      | .error _ => acc
    else acc
  | _ => acc

/-- Observer: the total effect of one entry on the validator state (its
value on a conflicting or malformed entry is irrelevant, since parsing
fails there). -/
def stepVal (acc : Option (Option Name)) (e : Entry) : Option (Option Name) :=
  match e with
  | .nameValue key l =>
    if key = VALIDATOR then
      match parse_lit_into_type VALIDATOR l with
      | .ok v => some (some v)
      | .error _ => acc
    else acc
  | .path key => if key = VALIDATOR then some none else acc
  | _ => acc

/-- Observer: the total effect of one entry on the normalizer state. -/
def stepNorm (acc : Option (Option Name)) (e : Entry) : Option (Option Name) :=
  match e with
  | .nameValue key l =>
    if key = NORMALIZER then
      match parse_lit_into_type NORMALIZER l with
      | .ok n => some (some n)
      | .error _ => acc
    else acc
  | .path key => if key = NORMALIZER then some none else acc
  | _ => acc

/-- Observer: the total effect of one entry on the diagnostic-format policy. -/
def stepDebug (acc : DelegatingImplOption) (e : Entry) : DelegatingImplOption :=
  match e with
  | .nameValue key l =>
    if key = DEBUG then
      match parse_lit_into_string DEBUG l with
      | .ok s =>
        match DelegatingImplOption.fromStr s with
        | .ok o => o
        | .error _ => acc
      | .error _ => acc
    else acc
  | _ => acc

/-- Observer: the total effect of one entry on the display-format policy. -/
def stepDisplay (acc : DelegatingImplOption) (e : Entry) : DelegatingImplOption :=
  match e with
  | .nameValue key l =>
    if key = DISPLAY then
      match parse_lit_into_string DISPLAY l with
      | .ok s =>
        match DelegatingImplOption.fromStr s with
        | .ok o => o
        | .error _ => acc
      | .error _ => acc
    else acc
  | _ => acc

/-- Observer: the total effect of one entry on the duplication policy. -/
def stepClone (acc : ImplOption) (e : Entry) : ImplOption :=
  match e with
  | .nameValue key l =>
    if key = CLONE then
      match parse_lit_into_string CLONE l with
      | .ok s =>
        match ImplOption.fromStr s with
        | .ok o => o
        | .error _ => acc
      | .error _ => acc
    else acc
  | _ => acc

/-- Observer: the total effect of one entry on the serialization policy. -/
def stepSerde (acc : ImplOption) (e : Entry) : ImplOption :=
  match e with
  | .nameValue key l =>
    if key = SERDE then
      match parse_lit_into_string SERDE l with
      | .ok s =>
        match ImplOption.fromStr s with
        | .ok o => o
        | .error _ => acc
      | .error _ => acc
    else acc
  | .path key => if key = SERDE then .implement else acc
  | _ => acc

/-- Selector: entries addressing the explicit reference type. -/
def selRef : Entry → Bool
  | .nameValue key _ => key == REF
  | _ => false

/-- Selector: entries addressing the validator (either form). -/
def selVal : Entry → Bool
  | .nameValue key _ => key == VALIDATOR
  | .path key => key == VALIDATOR
  | _ => false

/-- Selector: entries addressing the normalizer (either form). -/
def selNorm : Entry → Bool
  | .nameValue key _ => key == NORMALIZER
  | .path key => key == NORMALIZER
  | _ => false

/-- Selector: entries addressing the diagnostic-format policy. -/
def selDebug : Entry → Bool
  | .nameValue key _ => key == DEBUG
  | _ => false

/-- Selector: entries addressing the display-format policy. -/
def selDisplay : Entry → Bool
  | .nameValue key _ => key == DISPLAY
  | _ => false

/-- Selector: entries addressing the duplication policy. -/
def selClone : Entry → Bool
  | .nameValue key _ => key == CLONE
  | _ => false

/-- Selector: entries addressing the serialization policy (either form). -/
def selSerde : Entry → Bool
  | .nameValue key _ => key == SERDE
  | .path key => key == SERDE
  | _ => false

/-- Number of validator/normalizer slots already occupied by a
check-mode-in-progress state. -/
def kOpt (o : Option (Option Name)) : Nat :=
  match o with
  | none => 0
  | some _ => 1

/-- An entry is well formed when parsing it on its own (from the default
state) succeeds: recognized key, supported shape, parseable value. -/
def wf_entry (e : Entry) : Bool :=
  match Params.parseArg Params.default e with
  | .ok _ => true
  | .error _ => false

/-- Name-value keys recognized by `Params::parse`. -/
def nvKeys : List String := [REF, VALIDATOR, NORMALIZER, REF_DOC, DEBUG, DISPLAY, CLONE, SERDE]

/-- Bare-path keys recognized by `Params::parse`. -/
def pathKeys : List String := [SERDE, VALIDATOR, NORMALIZER]

/-- List-form keys recognized by `Params::parse`. -/
def listKeys : List String := [REF_ATTR, OWNED_ATTR]

/-- Each scalar key that is overwritten rather than conflict-checked
(reference type and the four capability policies) occurs at most once. -/
abbrev scalarOnce (args : List Entry) : Prop :=
  (args.filter selRef).length ≤ 1 ∧
  (args.filter selDebug).length ≤ 1 ∧
  (args.filter selDisplay).length ≤ 1 ∧
  (args.filter selClone).length ≤ 1 ∧
  (args.filter selSerde).length ≤ 1

/-- Sample declaration used to instantiate the claims on concrete input. -/
def sampleBody : ItemStruct :=
  { attrs := [], vis := "pub", ident := "UserId".toList, fields := [] }

/-- The generation context produced for `sampleBody` under the default
configuration. -/
def sampleCg : CodeGen :=
  { check_mode := CheckMode.none
    body := { sampleBody with fields := [{ attrs := [], ident := none, ty := "String".toList }] }
    field := { attrs := [], name := FieldName.unnamed, ty := "String".toList }
    owned_attrs := []
    ref_doc := [default_ref_doc "UserId".toList]
    ref_attrs := []
    ref_ty := "UserIdRef".toList
    impls := Impls.default }

/-- The generation context produced for `sampleBody` when one
reference-doc line was configured. -/
def sampleCgDoc : CodeGen := { sampleCg with ref_doc := [Lit.str "a"] }

/-- The parse result for a two-entry configuration used as the C8 witness:
one reference-doc line and a bare serialization key. -/
def c8p : Params :=
  { Params.default with
    ref_doc := [Lit.str "a"]
    impls := { Impls.default with serde := ImplOption.implement } }

end Codegen

namespace Codegen

set_option maxHeartbeats 2000000 in
/-- Characterization of one successful step of the argument loop: every component of the result is the corresponding total observer applied to the previous state. -/
theorem parseArg_ok_eq {params p' : Params} {e : Entry}
    (h : Params.parseArg params e = .ok p') :
    p' = { ref_ty := stepRefTy params.ref_ty e
           ref_doc := params.ref_doc ++ docOf e
           ref_attrs := params.ref_attrs ++ refAttrsOf e
           owned_attrs := params.owned_attrs ++ ownedAttrsOf e
           check_mode := { validator := stepVal params.check_mode.validator e
                           normalizer := stepNorm params.check_mode.normalizer e }
           impls := { debug := stepDebug params.impls.debug e
                      display := stepDisplay params.impls.display e
                      clone := stepClone params.impls.clone e
                      serde := stepSerde params.impls.serde e } } := by
  obtain ⟨rty, rdoc, rattrs, oattrs, ⟨val, norm⟩, ⟨db, dp, cl, sd⟩⟩ := params
  cases e with
  | nameValue key l =>
    simp only [Params.parseArg] at h
    cases val <;> cases norm <;>
      split_ifs at h <;>
      (repeat' split at h) <;>
      simp_all [stepRefTy, stepVal, stepNorm, stepDebug, stepDisplay, stepClone, stepSerde,
        docOf, refAttrsOf, ownedAttrsOf,
        IndefiniteCheckMode.try_set_validator, IndefiniteCheckMode.try_set_normalizer,
        REF, VALIDATOR, NORMALIZER, REF_DOC, DEBUG, DISPLAY, CLONE, SERDE, REF_ATTR, OWNED_ATTR]
  | path key =>
    simp only [Params.parseArg] at h
    cases val <;> cases norm <;>
      split_ifs at h <;>
      (repeat' split at h) <;>
      simp_all [stepRefTy, stepVal, stepNorm, stepDebug, stepDisplay, stepClone, stepSerde,
        docOf, refAttrsOf, ownedAttrsOf,
        IndefiniteCheckMode.try_set_validator, IndefiniteCheckMode.try_set_normalizer,
        REF, VALIDATOR, NORMALIZER, REF_DOC, DEBUG, DISPLAY, CLONE, SERDE, REF_ATTR, OWNED_ATTR]
  | metaList key nested =>
    simp only [Params.parseArg] at h
    split_ifs at h <;>
      simp_all [stepRefTy, stepVal, stepNorm, stepDebug, stepDisplay, stepClone, stepSerde,
        docOf, refAttrsOf, ownedAttrsOf,
        REF, VALIDATOR, NORMALIZER, REF_DOC, DEBUG, DISPLAY, CLONE, SERDE, REF_ATTR, OWNED_ATTR]
  | lit l => simp [Params.parseArg] at h

/-- Entries not addressing the reference type leave it unchanged. -/
theorem stepRefTy_not_sel (acc : Option Name) (e : Entry) (h : selRef e = false) :
    stepRefTy acc e = acc := by
  cases e <;> simp_all [selRef, stepRefTy]

/-- Entries not addressing the validator leave its state unchanged. -/
theorem stepVal_not_sel (acc : Option (Option Name)) (e : Entry) (h : selVal e = false) :
    stepVal acc e = acc := by
  cases e <;> simp_all [selVal, stepVal]

/-- Entries not addressing the normalizer leave its state unchanged. -/
theorem stepNorm_not_sel (acc : Option (Option Name)) (e : Entry) (h : selNorm e = false) :
    stepNorm acc e = acc := by
  cases e <;> simp_all [selNorm, stepNorm]

/-- Entries not addressing the diagnostic-format policy leave it unchanged. -/
theorem stepDebug_not_sel (acc : DelegatingImplOption) (e : Entry) (h : selDebug e = false) :
    stepDebug acc e = acc := by
  cases e <;> simp_all [selDebug, stepDebug]

/-- Entries not addressing the display-format policy leave it unchanged. -/
theorem stepDisplay_not_sel (acc : DelegatingImplOption) (e : Entry) (h : selDisplay e = false) :
    stepDisplay acc e = acc := by
  cases e <;> simp_all [selDisplay, stepDisplay]

/-- Entries not addressing the duplication policy leave it unchanged. -/
theorem stepClone_not_sel (acc : ImplOption) (e : Entry) (h : selClone e = false) :
    stepClone acc e = acc := by
  cases e <;> simp_all [selClone, stepClone]

/-- Entries not addressing the serialization policy leave it unchanged. -/
theorem stepSerde_not_sel (acc : ImplOption) (e : Entry) (h : selSerde e = false) :
    stepSerde acc e = acc := by
  cases e <;> simp_all [selSerde, stepSerde]

/-- Folding a function that ignores unselected elements equals folding over the selected sublist. -/
theorem foldl_filter_eq {α : Type} {f : α → Entry → α} {sel : Entry → Bool}
    (hf : ∀ a e, sel e = false → f a e = a) :
    ∀ (l : List Entry) (i : α), l.foldl f i = (l.filter sel).foldl f i := by
  intro l
  induction l with
  | nil => simp
  | cons e t ih =>
    intro i
    cases hs : sel e
    · simp [List.filter_cons, hs, ih, hf _ _ hs]
    · simp [List.filter_cons, hs, ih]

/-- Permutations of a list with at most one element are equal to it. -/
theorem perm_eq_of_length_le_one {α : Type} {l l' : List α}
    (h : l.Perm l') (hl : l.length ≤ 1) : l = l' := by
  match l with
  | [] => exact h.nil_eq
  | [a] => exact List.singleton_perm.mp h
  | a :: b :: t => simp at hl

/-- Characterization of a successful run of the argument loop: every scalar component is a fold of its observer and every list component accumulates contributions in input order. -/
theorem parseFrom_ok_char : ∀ (args : List Entry) (params p : Params),
    Params.parseFrom params args = .ok p →
    p.ref_ty = args.foldl stepRefTy params.ref_ty ∧
    p.check_mode.validator = args.foldl stepVal params.check_mode.validator ∧
    p.check_mode.normalizer = args.foldl stepNorm params.check_mode.normalizer ∧
    p.impls.debug = args.foldl stepDebug params.impls.debug ∧
    p.impls.display = args.foldl stepDisplay params.impls.display ∧
    p.impls.clone = args.foldl stepClone params.impls.clone ∧
    p.impls.serde = args.foldl stepSerde params.impls.serde ∧
    p.ref_doc = params.ref_doc ++ (args.map docOf).flatten ∧
    p.ref_attrs = params.ref_attrs ++ (args.map refAttrsOf).flatten ∧
    p.owned_attrs = params.owned_attrs ++ (args.map ownedAttrsOf).flatten := by
  intro args
  induction args with
  | nil =>
    intro params p h
    simp only [Params.parseFrom] at h
    cases h
    simp
  | cons e rest ih =>
    intro params p h
    simp only [Params.parseFrom] at h
    cases hp : params.parseArg e with
    | error m => rw [hp] at h; cases h
    | ok q =>
      rw [hp] at h
      have hq := parseArg_ok_eq hp
      subst hq
      have hrest := ih _ _ h
      simpa [List.append_assoc] using hrest

/-- A check-mode slot holds at most one occupant. -/
theorem kOpt_le_one (o : Option (Option Name)) : kOpt o ≤ 1 := by
  cases o <;> simp [kOpt]

/-- Validator entries are not normalizer entries. -/
theorem sel_val_not_norm {e : Entry} (h : selVal e = true) : selNorm e = false := by
  cases e <;> simp_all [selVal, selNorm, VALIDATOR, NORMALIZER]

/-- Normalizer entries are not validator entries. -/
theorem sel_norm_not_val {e : Entry} (h : selNorm e = true) : selVal e = false := by
  cases e <;> simp_all [selVal, selNorm, VALIDATOR, NORMALIZER]

/-- A validator entry only parses when the validator was unset, and leaves it set with the normalizer untouched. -/
theorem parseArg_sel_val {params q : Params} {e : Entry}
    (hp : Params.parseArg params e = .ok q) (hs : selVal e = true) :
    params.check_mode.validator = none ∧ q.check_mode.validator.isSome = true ∧
      q.check_mode.normalizer = params.check_mode.normalizer := by
  have hchar := parseArg_ok_eq hp
  subst hchar
  cases e with
  | nameValue key l =>
    have hk : key = VALIDATOR := by simpa [selVal] using hs
    subst hk
    cases hv : params.check_mode.validator with
    | some w =>
      exfalso
      cases hl : parse_lit_into_type VALIDATOR l <;>
        simp_all [Params.parseArg, IndefiniteCheckMode.try_set_validator,
          REF, VALIDATOR]
    | none =>
      cases hl : parse_lit_into_type VALIDATOR l with
      | error m =>
        exfalso
        simp_all [Params.parseArg, REF, VALIDATOR]
      | ok v =>
        simp only [VALIDATOR] at hl
        refine ⟨rfl, ?_, ?_⟩ <;>
          simp [stepVal, stepNorm, hl, VALIDATOR, NORMALIZER]
  | path key =>
    have hk : key = VALIDATOR := by simpa [selVal] using hs
    subst hk
    cases hv : params.check_mode.validator with
    | some w =>
      exfalso
      simp_all [Params.parseArg, IndefiniteCheckMode.try_set_validator,
        SERDE, VALIDATOR]
    | none =>
      refine ⟨rfl, ?_, ?_⟩ <;>
        simp [stepVal, stepNorm, VALIDATOR, NORMALIZER]
  | metaList key nested => simp [selVal] at hs
  | lit l => simp [selVal] at hs

/-- A normalizer entry only parses when the normalizer was unset, and leaves it set with the validator untouched. -/
theorem parseArg_sel_norm {params q : Params} {e : Entry}
    (hp : Params.parseArg params e = .ok q) (hs : selNorm e = true) :
    params.check_mode.normalizer = none ∧ q.check_mode.normalizer.isSome = true ∧
      q.check_mode.validator = params.check_mode.validator := by
  have hchar := parseArg_ok_eq hp
  subst hchar
  cases e with
  | nameValue key l =>
    have hk : key = NORMALIZER := by simpa [selNorm] using hs
    subst hk
    cases hv : params.check_mode.normalizer with
    | some w =>
      exfalso
      cases hl : parse_lit_into_type NORMALIZER l <;>
        simp_all [Params.parseArg, IndefiniteCheckMode.try_set_normalizer,
          REF, VALIDATOR, NORMALIZER]
    | none =>
      cases hl : parse_lit_into_type NORMALIZER l with
      | error m =>
        exfalso
        simp_all [Params.parseArg, REF, VALIDATOR, NORMALIZER]
      | ok v =>
        simp only [NORMALIZER] at hl
        refine ⟨rfl, ?_, ?_⟩ <;>
          simp [stepVal, stepNorm, hl, VALIDATOR, NORMALIZER]
  | path key =>
    have hk : key = NORMALIZER := by simpa [selNorm] using hs
    subst hk
    cases hv : params.check_mode.normalizer with
    | some w =>
      exfalso
      simp_all [Params.parseArg, IndefiniteCheckMode.try_set_normalizer,
        SERDE, VALIDATOR, NORMALIZER]
    | none =>
      refine ⟨rfl, ?_, ?_⟩ <;>
        simp [stepVal, stepNorm, VALIDATOR, NORMALIZER]
  | metaList key nested => simp [selNorm] at hs
  | lit l => simp [selNorm] at hs

/-- A well-formed entry that addresses neither validator nor normalizer parses from any state and preserves the check mode. -/
theorem parseArg_wf_other {params : Params} {e : Entry} (hwf : wf_entry e = true)
    (hv : selVal e = false) (hn : selNorm e = false) :
    ∃ q, Params.parseArg params e = .ok q ∧ q.check_mode = params.check_mode := by
  cases e with
  | nameValue key l =>
    simp only [selVal, beq_eq_false_iff_ne, ne_eq] at hv
    simp only [selNorm, beq_eq_false_iff_ne, ne_eq] at hn
    simp only [wf_entry, Params.parseArg] at hwf ⊢
    split_ifs at hwf ⊢
    · cases hl : parse_lit_into_type REF l <;> simp_all
    · simp_all
    · cases hl : parse_lit_into_string DEBUG l with
      | error m => simp_all
      | ok s => cases ho : DelegatingImplOption.fromStr s <;> simp_all
    · cases hl : parse_lit_into_string DISPLAY l with
      | error m => simp_all
      | ok s => cases ho : DelegatingImplOption.fromStr s <;> simp_all
    · cases hl : parse_lit_into_string CLONE l with
      | error m => simp_all
      | ok s => cases ho : ImplOption.fromStr s <;> simp_all
    · cases hl : parse_lit_into_string SERDE l with
      | error m => simp_all
      | ok s => cases ho : ImplOption.fromStr s <;> simp_all
  | path key =>
    simp only [selVal, beq_eq_false_iff_ne, ne_eq] at hv
    simp only [selNorm, beq_eq_false_iff_ne, ne_eq] at hn
    simp only [wf_entry, Params.parseArg] at hwf ⊢
    split_ifs at hwf ⊢
    simp_all
  | metaList key nested =>
    simp only [wf_entry, Params.parseArg] at hwf ⊢
    split_ifs at hwf ⊢ <;> simp_all
  | lit l =>
    simp [wf_entry, Params.parseArg] at hwf

/-- A successful parse contains at most one validator entry and at most one normalizer entry (counting the starting state). -/
theorem parseFrom_counts : ∀ (args : List Entry) (params p : Params),
    Params.parseFrom params args = .ok p →
    (args.filter selVal).length + kOpt params.check_mode.validator ≤ 1 ∧
    (args.filter selNorm).length + kOpt params.check_mode.normalizer ≤ 1 := by
  intro args
  induction args with
  | nil =>
    intro params p h
    exact ⟨by simpa using kOpt_le_one _, by simpa using kOpt_le_one _⟩
  | cons e rest ih =>
    intro params p h
    simp only [Params.parseFrom] at h
    cases hp : params.parseArg e with
    | error m => rw [hp] at h; cases h
    | ok q =>
      rw [hp] at h
      have hrest := ih _ _ h
      by_cases hsv : selVal e = true
      · obtain ⟨hnone, hsome, hnorm⟩ := parseArg_sel_val hp hsv
        have h1 : kOpt q.check_mode.validator = 1 := by
          cases hq : q.check_mode.validator <;> simp_all [kOpt]
        have hsn : selNorm e = false := sel_val_not_norm hsv
        constructor
        · have := hrest.1
          rw [h1] at this
          simp only [List.filter_cons, hsv, if_pos, hnone, kOpt, List.length_cons]
          omega
        · have := hrest.2
          rw [hnorm] at this
          simpa [List.filter_cons, hsn] using this
      · have hsv' : selVal e = false := by simpa using hsv
        by_cases hsn : selNorm e = true
        · obtain ⟨hnone, hsome, hval⟩ := parseArg_sel_norm hp hsn
          have h1 : kOpt q.check_mode.normalizer = 1 := by
            cases hq : q.check_mode.normalizer <;> simp_all [kOpt]
          constructor
          · have := hrest.1
            rw [hval] at this
            simpa [List.filter_cons, hsv'] using this
          · have := hrest.2
            rw [h1] at this
            simp only [List.filter_cons, hsn, if_pos, hnone, kOpt, List.length_cons]
            omega
        · have hsn' : selNorm e = false := by simpa using hsn
          have hq := parseArg_ok_eq hp
          have hv2 : q.check_mode.validator = params.check_mode.validator := by
            rw [hq]; simp [stepVal_not_sel _ _ hsv']
          have hn2 : q.check_mode.normalizer = params.check_mode.normalizer := by
            rw [hq]; simp [stepNorm_not_sel _ _ hsn']
          rw [hv2, hn2] at hrest
          simpa [List.filter_cons, hsv', hsn'] using hrest

/-- A well-formed validator entry hitting an occupied validator slot raises the conflict error naming the validator key. -/
theorem parseArg_val_dup {params : Params} {e : Entry} {w : Option Name}
    (hwfe : wf_entry e = true) (hsv : selVal e = true)
    (hv : params.check_mode.validator = some w) :
    Params.parseArg params e = .error (conflictMsg VALIDATOR) := by
  cases e with
  | nameValue key l =>
    have hk : key = VALIDATOR := by simpa [selVal] using hsv
    subst hk
    have hlit : ∃ s, l = .str s := by
      cases l with
      | str s => exact ⟨s, rfl⟩
      | int n =>
        exfalso
        simp [wf_entry, Params.parseArg, REF, VALIDATOR, parse_lit_into_type] at hwfe
    obtain ⟨s, rfl⟩ := hlit
    simp [Params.parseArg, REF, VALIDATOR, parse_lit_into_type,
      IndefiniteCheckMode.try_set_validator, hv]
  | path key =>
    have hk : key = VALIDATOR := by simpa [selVal] using hsv
    subst hk
    simp [Params.parseArg, SERDE, VALIDATOR,
      IndefiniteCheckMode.try_set_validator, hv]
  | metaList key nested => simp [selVal] at hsv
  | lit l => simp [selVal] at hsv

/-- A well-formed validator entry hitting a free validator slot parses, fills the slot and leaves the normalizer unchanged. -/
theorem parseArg_val_set {params : Params} {e : Entry}
    (hwfe : wf_entry e = true) (hsv : selVal e = true)
    (hv : params.check_mode.validator = none) :
    ∃ q, Params.parseArg params e = .ok q ∧ q.check_mode.validator.isSome = true ∧
      q.check_mode.normalizer = params.check_mode.normalizer := by
  cases e with
  | nameValue key l =>
    have hk : key = VALIDATOR := by simpa [selVal] using hsv
    subst hk
    have hlit : ∃ s, l = .str s := by
      cases l with
      | str s => exact ⟨s, rfl⟩
      | int n =>
        exfalso
        simp [wf_entry, Params.parseArg, REF, VALIDATOR, parse_lit_into_type] at hwfe
    obtain ⟨s, rfl⟩ := hlit
    refine ⟨{ params with check_mode := { params.check_mode with validator := some (some s.toList) } }, ?_, by simp, by simp⟩
    simp [Params.parseArg, REF, VALIDATOR, parse_lit_into_type,
      IndefiniteCheckMode.try_set_validator, hv]
  | path key =>
    have hk : key = VALIDATOR := by simpa [selVal] using hsv
    subst hk
    refine ⟨{ params with check_mode := { params.check_mode with validator := some none } }, ?_, by simp, by simp⟩
    simp [Params.parseArg, SERDE, VALIDATOR,
      IndefiniteCheckMode.try_set_validator, hv]
  | metaList key nested => simp [selVal] at hsv
  | lit l => simp [selVal] at hsv

/-- A well-formed normalizer entry hitting an occupied normalizer slot raises the conflict error naming the normalizer key. -/
theorem parseArg_norm_dup {params : Params} {e : Entry} {w : Option Name}
    (hwfe : wf_entry e = true) (hsn : selNorm e = true)
    (hv : params.check_mode.normalizer = some w) :
    Params.parseArg params e = .error (conflictMsg NORMALIZER) := by
  cases e with
  | nameValue key l =>
    have hk : key = NORMALIZER := by simpa [selNorm] using hsn
    subst hk
    have hlit : ∃ s, l = .str s := by
      cases l with
      | str s => exact ⟨s, rfl⟩
      | int n =>
        exfalso
        simp [wf_entry, Params.parseArg, REF, VALIDATOR, NORMALIZER,
          parse_lit_into_type] at hwfe
    obtain ⟨s, rfl⟩ := hlit
    simp [Params.parseArg, REF, VALIDATOR, NORMALIZER, parse_lit_into_type,
      IndefiniteCheckMode.try_set_normalizer, hv]
  | path key =>
    have hk : key = NORMALIZER := by simpa [selNorm] using hsn
    subst hk
    simp [Params.parseArg, SERDE, VALIDATOR, NORMALIZER,
      IndefiniteCheckMode.try_set_normalizer, hv]
  | metaList key nested => simp [selNorm] at hsn
  | lit l => simp [selNorm] at hsn

/-- A well-formed normalizer entry hitting a free normalizer slot parses, fills the slot and leaves the validator unchanged. -/
theorem parseArg_norm_set {params : Params} {e : Entry}
    (hwfe : wf_entry e = true) (hsn : selNorm e = true)
    (hv : params.check_mode.normalizer = none) :
    ∃ q, Params.parseArg params e = .ok q ∧ q.check_mode.normalizer.isSome = true ∧
      q.check_mode.validator = params.check_mode.validator := by
  cases e with
  | nameValue key l =>
    have hk : key = NORMALIZER := by simpa [selNorm] using hsn
    subst hk
    have hlit : ∃ s, l = .str s := by
      cases l with
      | str s => exact ⟨s, rfl⟩
      | int n =>
        exfalso
        simp [wf_entry, Params.parseArg, REF, VALIDATOR, NORMALIZER,
          parse_lit_into_type] at hwfe
    obtain ⟨s, rfl⟩ := hlit
    refine ⟨{ params with check_mode := { params.check_mode with normalizer := some (some s.toList) } }, ?_, by simp, by simp⟩
    simp [Params.parseArg, REF, VALIDATOR, NORMALIZER, parse_lit_into_type,
      IndefiniteCheckMode.try_set_normalizer, hv]
  | path key =>
    have hk : key = NORMALIZER := by simpa [selNorm] using hsn
    subst hk
    refine ⟨{ params with check_mode := { params.check_mode with normalizer := some none } }, ?_, by simp, by simp⟩
    simp [Params.parseArg, SERDE, VALIDATOR, NORMALIZER,
      IndefiniteCheckMode.try_set_normalizer, hv]
  | metaList key nested => simp [selNorm] at hsn
  | lit l => simp [selNorm] at hsn

/-- With only well-formed entries, a second validator or normalizer occurrence makes the argument loop fail with the corresponding conflict error. -/
theorem parseFrom_conflict : ∀ (args : List Entry) (params : Params),
    (∀ e ∈ args, wf_entry e = true) →
    (2 ≤ (args.filter selVal).length + kOpt params.check_mode.validator ∨
      2 ≤ (args.filter selNorm).length + kOpt params.check_mode.normalizer) →
    (Params.parseFrom params args = .error (conflictMsg VALIDATOR) ∧
      2 ≤ (args.filter selVal).length + kOpt params.check_mode.validator) ∨
    (Params.parseFrom params args = .error (conflictMsg NORMALIZER) ∧
      2 ≤ (args.filter selNorm).length + kOpt params.check_mode.normalizer) := by
  intro args
  induction args with
  | nil =>
    intro params hwf hcnt
    exfalso
    have h1 := kOpt_le_one params.check_mode.validator
    have h2 := kOpt_le_one params.check_mode.normalizer
    simp only [List.filter_nil, List.length_nil, Nat.zero_add] at hcnt
    omega
  | cons e rest ih =>
    intro params hwf hcnt
    have hwfe : wf_entry e = true := hwf e (List.mem_cons_self e rest)
    have hwfr : ∀ x ∈ rest, wf_entry x = true := fun x hx => hwf x (List.mem_cons_of_mem e hx)
    by_cases hsv : selVal e = true
    · have hsn : selNorm e = false := sel_val_not_norm hsv
      cases hv : params.check_mode.validator with
      | some w =>
        left
        constructor
        · have hc := parseArg_val_dup hwfe hsv hv
          simp only [Params.parseFrom, hc]
        · simp [List.filter_cons, hsv, hv, kOpt]
      | none =>
        obtain ⟨q, hq, hqsome, hqnorm⟩ := parseArg_val_set hwfe hsv hv
        have h1 : kOpt q.check_mode.validator = 1 := by
          cases hx : q.check_mode.validator <;> simp_all [kOpt]
        have hstep : Params.parseFrom params (e :: rest) = Params.parseFrom q rest := by
          simp only [Params.parseFrom, hq]
        have hcnt' :
            2 ≤ (rest.filter selVal).length + kOpt q.check_mode.validator ∨
            2 ≤ (rest.filter selNorm).length + kOpt q.check_mode.normalizer := by
          rcases hcnt with hc | hc
          · left
            simp only [List.filter_cons, hsv, if_pos, List.length_cons, hv, kOpt] at hc
            omega
          · right
            rw [hqnorm]
            simpa [List.filter_cons, hsn] using hc
        rcases ih q hwfr hcnt' with ⟨herr, hle⟩ | ⟨herr, hle⟩
        · left
          refine ⟨by rw [hstep]; exact herr, ?_⟩
          simp only [List.filter_cons, hsv, if_pos, List.length_cons, hv, kOpt]
          rw [h1] at hle
          omega
        · right
          refine ⟨by rw [hstep]; exact herr, ?_⟩
          rw [hqnorm] at hle
          simpa [List.filter_cons, hsn] using hle
    · have hsv' : selVal e = false := by simpa using hsv
      by_cases hsn : selNorm e = true
      · have hsv2 : selVal e = false := sel_norm_not_val hsn
        cases hv : params.check_mode.normalizer with
        | some w =>
          right
          constructor
          · have hc := parseArg_norm_dup hwfe hsn hv
            simp only [Params.parseFrom, hc]
          · simp [List.filter_cons, hsn, hv, kOpt]
        | none =>
          obtain ⟨q, hq, hqsome, hqval⟩ := parseArg_norm_set hwfe hsn hv
          have h1 : kOpt q.check_mode.normalizer = 1 := by
            cases hx : q.check_mode.normalizer <;> simp_all [kOpt]
          have hstep : Params.parseFrom params (e :: rest) = Params.parseFrom q rest := by
            simp only [Params.parseFrom, hq]
          have hcnt' :
              2 ≤ (rest.filter selVal).length + kOpt q.check_mode.validator ∨
              2 ≤ (rest.filter selNorm).length + kOpt q.check_mode.normalizer := by
            rcases hcnt with hc | hc
            · left
              rw [hqval]
              simpa [List.filter_cons, hsv2] using hc
            · right
              simp only [List.filter_cons, hsn, if_pos, List.length_cons, hv, kOpt] at hc
              omega
          rcases ih q hwfr hcnt' with ⟨herr, hle⟩ | ⟨herr, hle⟩
          · left
            refine ⟨by rw [hstep]; exact herr, ?_⟩
            rw [hqval] at hle
            simpa [List.filter_cons, hsv2] using hle
          · right
            refine ⟨by rw [hstep]; exact herr, ?_⟩
            simp only [List.filter_cons, hsn, if_pos, List.length_cons, hv, kOpt]
            rw [h1] at hle
            omega
      · have hsn' : selNorm e = false := by simpa using hsn
        obtain ⟨q, hq, hcm⟩ := @parseArg_wf_other params e hwfe hsv' hsn'
        have hstep : Params.parseFrom params (e :: rest) = Params.parseFrom q rest := by
          simp only [Params.parseFrom, hq]
        have hcnt' :
            2 ≤ (rest.filter selVal).length + kOpt q.check_mode.validator ∨
            2 ≤ (rest.filter selNorm).length + kOpt q.check_mode.normalizer := by
          rw [hcm]
          simpa [List.filter_cons, hsv', hsn'] using hcnt
        rcases ih q hwfr hcnt' with ⟨herr, hle⟩ | ⟨herr, hle⟩
        · left
          refine ⟨by rw [hstep]; exact herr, ?_⟩
          rw [hcm] at hle
          simpa [List.filter_cons, hsv', hsn'] using hle
        · right
          refine ⟨by rw [hstep]; exact herr, ?_⟩
          rw [hcm] at hle
          simpa [List.filter_cons, hsv', hsn'] using hle

end Codegen

namespace Codegen

/-- C1: For every parsed configuration, the check mode resolved by
`Params::build` follows the inference rules: normalizer set with validator
unset (or explicitly absent) resolves to `ValidateAndNormalize` with a
validator inferred from the owned type's identity; validator set with
normalizer unset resolves to `Validate` of that validator only; neither
set resolves to `None`. -/
theorem claim_C1_check_mode_inference :
    ∀ (params : Params) (body : ItemStruct) (owned v n : Name),
      ((Params.build params body).toOption.map CodeGen.check_mode =
        (Params.build params body).toOption.map fun _ =>
          params.check_mode.infer_validator_if_missing body.ident) ∧
      IndefiniteCheckMode.infer_validator_if_missing ⟨none, some (some n)⟩ owned =
        CheckMode.validateAndNormalize (infer_validator_from_owned_name owned) n ∧
      IndefiniteCheckMode.infer_validator_if_missing ⟨some none, some (some n)⟩ owned =
        CheckMode.validateAndNormalize (infer_validator_from_owned_name owned) n ∧
      IndefiniteCheckMode.infer_validator_if_missing ⟨some (some v), none⟩ owned =
        CheckMode.validate v ∧
      IndefiniteCheckMode.infer_validator_if_missing ⟨none, none⟩ owned = CheckMode.none := by
  intro params body owned v n
  refine ⟨?_, rfl, rfl, rfl, rfl⟩
  simp only [Params.build]
  split <;> rfl

/-- C2: Whenever `Params::build` succeeds, the borrowed type's identity is
the explicit override when one was given and the inferred name otherwise;
the inference strips a trailing `Buf` (three characters) and appends `Ref`
when the owned name does not end in `Buf`. -/
theorem claim_C2_reference_type_inference :
    ∀ (params : Params) (body : ItemStruct) (base owned : Name),
      ((Params.build params body).toOption.map CodeGen.ref_ty =
        (Params.build params body).toOption.map fun _ =>
          params.ref_ty.getD (infer_ref_type_from_owned_name body.ident)) ∧
      infer_ref_type_from_owned_name (base ++ "Buf".toList) = base ∧
      ("Buf".toList.isSuffixOf owned = false →
        infer_ref_type_from_owned_name owned = owned ++ "Ref".toList) := by
  intro params body base owned
  refine ⟨?_, ?_, fun h => ?_⟩
  · simp only [Params.build]
    split <;> rfl
  · have hsfx : ("Buf".toList.isSuffixOf (base ++ "Buf".toList)) = true := by
      rw [List.isSuffixOf_iff_suffix]
      exact List.suffix_append _ _
    simp [infer_ref_type_from_owned_name, hsfx]
  · unfold infer_ref_type_from_owned_name
    rw [h]
    simp

/-- C2 witness: the inference at the concrete owned name `UserId`, which
does not end in `Buf`. -/
theorem claim_C2_witness :
    infer_ref_type_from_owned_name "UserId".toList = "UserId".toList ++ "Ref".toList :=
  (claim_C2_reference_type_inference Params.default sampleBody [] "UserId".toList).2.2
    (by decide)

/-- C5: For every declaration with zero fields, context construction
succeeds, synthesizes exactly one unnamed field of the generic string type
`String`, and the resulting field list contains exactly that field. -/
theorem claim_C5_zero_fields_synthesized :
    ∀ (params : Params) (attrs : List Attr) (vis : String) (ident : Name),
      ∃ cg,
        Params.build params { attrs := attrs, vis := vis, ident := ident, fields := [] } =
          .ok cg ∧
        cg.body.fields = [{ attrs := [], ident := none, ty := "String".toList }] ∧
        cg.field = { attrs := [], name := FieldName.unnamed, ty := "String".toList } := by
  intro params attrs vis ident
  exact ⟨_, rfl, rfl, rfl⟩

/-- C6: For every declaration whose field list has two or more fields,
context construction fails with the one-field error and produces no
context. -/
theorem claim_C6_too_many_fields :
    ∀ (params : Params) (attrs : List Attr) (vis : String) (ident : Name)
      (f1 f2 : SynField) (rest : List SynField),
      Params.build params
          { attrs := attrs, vis := vis, ident := ident, fields := f1 :: f2 :: rest } =
        .error "typed string can only have one field" := by
  intro params attrs vis ident f1 f2 rest
  rfl

/-- C7: Generation emits exactly the owned bundle's tokens followed by the
borrowed bundle's tokens, and both bundles carry the context's one check
mode and one resolved field. -/
theorem claim_C7_generate_two_bundles :
    ∀ (ownedTokens : OwnedCodeGen → TokenStream) (refTokens : RefCodeGen → TokenStream)
      (cg : CodeGen),
      CodeGen.generate ownedTokens refTokens cg =
        ownedTokens cg.owned ++ refTokens cg.borrowed ∧
      cg.owned.check_mode = cg.check_mode ∧
      cg.borrowed.check_mode = cg.check_mode ∧
      cg.owned.field = cg.field ∧
      cg.borrowed.field = cg.field := by
  intro ownedTokens refTokens cg
  exact ⟨rfl, rfl, rfl, rfl, rfl⟩

/-- C10: The bare serialization key parses from any state and sets the
serialization policy to implement, even though the attribute grammar's
table lists only the name-value form for that key. -/
theorem claim_C10_bare_serde :
    ∀ (params : Params),
      Params.parseArg params (.path SERDE) =
        .ok { params with impls := { params.impls with serde := ImplOption.implement } } ∧
      Params.parse [.path SERDE] =
        .ok { Params.default with impls := { Impls.default with serde := ImplOption.implement } } := by
  intro params
  exact ⟨rfl, by decide⟩

end Codegen

namespace Codegen

/-- C3 (amended): For every sequence of individually well-formed entries
that sets the validator key more than once or the normalizer key more than
once (value or bare form, in any combination), parsing fails with a
conflict error identifying a duplicated key, and no `Params` value is
produced. (Without the well-formedness proviso an earlier malformed entry
can fail first with a non-conflict error.) -/
theorem claim_C3_duplicate_conflict :
    ∀ args : List Entry, (∀ e ∈ args, wf_entry e = true) →
      (2 ≤ (args.filter selVal).length ∨ 2 ≤ (args.filter selNorm).length) →
      (Params.parse args = .error (conflictMsg VALIDATOR) ∧
        2 ≤ (args.filter selVal).length) ∨
      (Params.parse args = .error (conflictMsg NORMALIZER) ∧
        2 ≤ (args.filter selNorm).length) := by
  intro args hwf hcnt
  have h := parseFrom_conflict args Params.default hwf
    (by simpa [Params.default, kOpt] using hcnt)
  simpa [Params.parse, Params.default, kOpt] using h

/-- C3 witness: two bare validator keys produce the validator conflict. -/
theorem claim_C3_witness :
    (Params.parse [Entry.path VALIDATOR, Entry.path VALIDATOR] =
        .error (conflictMsg VALIDATOR) ∧
      2 ≤ ([Entry.path VALIDATOR, Entry.path VALIDATOR].filter selVal).length) ∨
    (Params.parse [Entry.path VALIDATOR, Entry.path VALIDATOR] =
        .error (conflictMsg NORMALIZER) ∧
      2 ≤ ([Entry.path VALIDATOR, Entry.path VALIDATOR].filter selNorm).length) :=
  claim_C3_duplicate_conflict _ (by decide) (Or.inl (by decide))

/-- C3 counterexample: a sequence that sets the validator twice but whose
first entry has an unknown key fails with the unsupported-argument error,
not with a conflict error, refuting the claim as stated. -/
theorem claim_C3_counterexample :
    2 ≤ ([Entry.path "other", Entry.path VALIDATOR, Entry.path VALIDATOR].filter selVal).length ∧
    Params.parse [Entry.path "other", Entry.path VALIDATOR, Entry.path VALIDATOR] =
      .error "unsupported argument `other`" ∧
    "unsupported argument `other`" ≠ conflictMsg VALIDATOR ∧
    "unsupported argument `other`" ≠ conflictMsg NORMALIZER := by
  decide

/-- C4 (amended): an entry with an unrecognized key, or a recognized key in
an unsupported shape, makes parsing fail; for path-form and name-value-form
entries the message names the key, while list-form entries fail with the
bare message `unsupported argument` that does not name the key. -/
theorem claim_C4_unsupported_argument :
    ∀ (params : Params) (key : String) (l : Lit) (nested : List Attr),
      (key ∉ nvKeys →
        Params.parseArg params (.nameValue key l) =
          .error ("unsupported argument `" ++ key ++ "`") ∧
        Params.parse [.nameValue key l] =
          .error ("unsupported argument `" ++ key ++ "`")) ∧
      (key ∉ pathKeys →
        Params.parseArg params (.path key) =
          .error ("unsupported argument `" ++ key ++ "`") ∧
        Params.parse [.path key] =
          .error ("unsupported argument `" ++ key ++ "`")) ∧
      (key ∉ listKeys →
        Params.parseArg params (.metaList key nested) = .error "unsupported argument" ∧
        Params.parse [.metaList key nested] = .error "unsupported argument") := by
  intro params key l nested
  refine ⟨fun h => ?_, fun h => ?_, fun h => ?_⟩
  · simp only [nvKeys, List.mem_cons, List.not_mem_nil, or_false, not_or] at h
    obtain ⟨h1, h2, h3, h4, h5, h6, h7, h8⟩ := h
    have hd : Params.parseArg Params.default (.nameValue key l) =
        .error ("unsupported argument `" ++ key ++ "`") := by
      simp [Params.parseArg, h1, h2, h3, h4, h5, h6, h7, h8]
    refine ⟨by simp [Params.parseArg, h1, h2, h3, h4, h5, h6, h7, h8], ?_⟩
    simp [Params.parse, Params.parseFrom, hd]
  · simp only [pathKeys, List.mem_cons, List.not_mem_nil, or_false, not_or] at h
    obtain ⟨h1, h2, h3⟩ := h
    have hd : Params.parseArg Params.default (.path key) =
        .error ("unsupported argument `" ++ key ++ "`") := by
      simp [Params.parseArg, h1, h2, h3]
    refine ⟨by simp [Params.parseArg, h1, h2, h3], ?_⟩
    simp [Params.parse, Params.parseFrom, hd]
  · simp only [listKeys, List.mem_cons, List.not_mem_nil, or_false, not_or] at h
    obtain ⟨h1, h2⟩ := h
    have hd : Params.parseArg Params.default (.metaList key nested) =
        .error "unsupported argument" := by
      simp [Params.parseArg, h1, h2]
    refine ⟨by simp [Params.parseArg, h1, h2], ?_⟩
    simp [Params.parse, Params.parseFrom, hd]

/-- C4 witness: the unknown key `frob` in name-value and path form, and the
recognized validator key in the unsupported list form. -/
theorem claim_C4_witness :
    (Params.parseArg Params.default (Entry.nameValue "frob" (Lit.str "x")) =
        .error ("unsupported argument `" ++ "frob" ++ "`") ∧
      Params.parse [Entry.nameValue "frob" (Lit.str "x")] =
        .error ("unsupported argument `" ++ "frob" ++ "`")) ∧
    (Params.parseArg Params.default (Entry.path "frob") =
        .error ("unsupported argument `" ++ "frob" ++ "`") ∧
      Params.parse [Entry.path "frob"] =
        .error ("unsupported argument `" ++ "frob" ++ "`")) ∧
    (Params.parseArg Params.default (Entry.metaList VALIDATOR []) =
        .error "unsupported argument" ∧
      Params.parse [Entry.metaList VALIDATOR []] = .error "unsupported argument") :=
  ⟨(claim_C4_unsupported_argument Params.default "frob" (Lit.str "x") []).1 (by decide),
    (claim_C4_unsupported_argument Params.default "frob" (Lit.str "x") []).2.1 (by decide),
    (claim_C4_unsupported_argument Params.default VALIDATOR (Lit.str "x") []).2.2 (by decide)⟩

/-- C4 counterexample: the validator key used in the unsupported list shape
fails with a message that does not name the key, refuting the claim as
stated. -/
theorem claim_C4_counterexample :
    Params.parse [Entry.metaList VALIDATOR []] = .error "unsupported argument" ∧
    "unsupported argument" ≠ "unsupported argument `" ++ VALIDATOR ++ "`" := by
  decide

end Codegen

namespace Codegen

/-- C8 (amended): two successful parses of permuted inputs agree on the
check mode (its duplicates are rejected, so success bounds them), and on
every other scalar option provided each such key — reference type and the
four capability policies, which are last-occurrence-wins — occurs at most
once; list-valued keys accumulate in input order. -/
theorem claim_C8_permutation_scalars :
    ∀ (args args2 : List Entry) (p p2 : Params),
      args.Perm args2 → scalarOnce args →
      Params.parse args = .ok p → Params.parse args2 = .ok p2 →
      (p.ref_ty = p2.ref_ty ∧ p.check_mode = p2.check_mode ∧ p.impls = p2.impls) ∧
      p.ref_doc = (args.map docOf).flatten ∧
      p.ref_attrs = (args.map refAttrsOf).flatten ∧
      p.owned_attrs = (args.map ownedAttrsOf).flatten := by
  intro args args2 p p2 hperm honce hp hp2
  obtain ⟨hr, hd, hdi, hc, hs⟩ := honce
  obtain ⟨a1, a2, a3, a4, a5, a6, a7, a8, a9, a10⟩ :=
    parseFrom_ok_char args Params.default p hp
  obtain ⟨b1, b2, b3, b4, b5, b6, b7, b8, b9, b10⟩ :=
    parseFrom_ok_char args2 Params.default p2 hp2
  have cnt := parseFrom_counts args Params.default p hp
  have hva : (args.filter selVal).length ≤ 1 := by
    have := cnt.1
    simpa [Params.default, kOpt] using this
  have hna : (args.filter selNorm).length ≤ 1 := by
    have := cnt.2
    simpa [Params.default, kOpt] using this
  have key : ∀ {α : Type} (stepX : α → Entry → α) (selX : Entry → Bool),
      (∀ a e, selX e = false → stepX a e = a) →
      (args.filter selX).length ≤ 1 → ∀ i : α,
      args.foldl stepX i = args2.foldl stepX i := by
    intro α stepX selX hns hlen i
    rw [foldl_filter_eq hns args i, foldl_filter_eq hns args2 i,
      perm_eq_of_length_le_one (hperm.filter selX) hlen]
  refine ⟨⟨?_, ?_, ?_⟩, ?_, ?_, ?_⟩
  · rw [a1, b1, key stepRefTy selRef stepRefTy_not_sel hr]
  · apply IndefiniteCheckMode.ext
    · rw [a2, b2, key stepVal selVal stepVal_not_sel hva]
    · rw [a3, b3, key stepNorm selNorm stepNorm_not_sel hna]
  · apply Impls.ext
    · rw [a4, b4, key stepDebug selDebug stepDebug_not_sel hd]
    · rw [a5, b5, key stepDisplay selDisplay stepDisplay_not_sel hdi]
    · rw [a6, b6, key stepClone selClone stepClone_not_sel hc]
    · rw [a7, b7, key stepSerde selSerde stepSerde_not_sel hs]
  · rw [a8]
    simp [Params.default]
  · rw [a9]
    simp [Params.default]
  · rw [a10]
    simp [Params.default]

/-- C8 witness: a reference-doc line and a bare serialization key, in both
orders. -/
theorem claim_C8_witness :
    ((c8p.ref_ty = c8p.ref_ty ∧ c8p.check_mode = c8p.check_mode ∧ c8p.impls = c8p.impls) ∧
      c8p.ref_doc =
        ([Entry.nameValue REF_DOC (Lit.str "a"), Entry.path SERDE].map docOf).flatten ∧
      c8p.ref_attrs =
        ([Entry.nameValue REF_DOC (Lit.str "a"), Entry.path SERDE].map refAttrsOf).flatten ∧
      c8p.owned_attrs =
        ([Entry.nameValue REF_DOC (Lit.str "a"), Entry.path SERDE].map ownedAttrsOf).flatten) :=
  claim_C8_permutation_scalars
    [Entry.nameValue REF_DOC (Lit.str "a"), Entry.path SERDE]
    [Entry.path SERDE, Entry.nameValue REF_DOC (Lit.str "a")]
    c8p c8p (by decide) (by decide) (by decide) (by decide)

/-- C8 counterexample: two reference-type entries in the two orders both
parse, but the surviving scalar value differs, refuting the claim as
stated (the reference-type key is overwritten, not conflict-checked). -/
theorem claim_C8_counterexample :
    [Entry.nameValue REF (Lit.str "A"), Entry.nameValue REF (Lit.str "B")].Perm
      [Entry.nameValue REF (Lit.str "B"), Entry.nameValue REF (Lit.str "A")] ∧
    Params.parse [Entry.nameValue REF (Lit.str "A"), Entry.nameValue REF (Lit.str "B")] =
      .ok { Params.default with ref_ty := some "B".toList } ∧
    Params.parse [Entry.nameValue REF (Lit.str "B"), Entry.nameValue REF (Lit.str "A")] =
      .ok { Params.default with ref_ty := some "A".toList } ∧
    (some "B".toList : Option Name) ≠ some "A".toList := by
  decide

/-- C9: when no reference-doc entry is given, the built context's reference
documentation is exactly the one synthesized sentence naming the owned
type; when at least one is given, no sentence is synthesized and the given
lines are kept in input order. -/
theorem claim_C9_reference_doc_default :
    ∀ (args : List Entry) (params : Params) (body : ItemStruct) (cg : CodeGen),
      Params.parse args = .ok params → Params.build params body = .ok cg →
      ((args.map docOf).flatten = [] → cg.ref_doc = [default_ref_doc body.ident]) ∧
      ((args.map docOf).flatten ≠ [] → cg.ref_doc = (args.map docOf).flatten) := by
  intro args params body cg hp hb
  obtain ⟨-, -, -, -, -, -, -, hdoc, -, -⟩ := parseFrom_ok_char args Params.default params hp
  have hdoc2 : params.ref_doc = (args.map docOf).flatten := by
    simpa [Params.default] using hdoc
  simp only [Params.build] at hb
  split at hb
  · cases hb
  · cases hb
    constructor
    · intro hnil
      simp [hdoc2, hnil]
    · intro hne
      simp [hdoc2, hne]

/-- C9 witness: no reference-doc entry synthesizes the one default line;
one given line is kept verbatim. -/
theorem claim_C9_witness :
    (sampleCg.ref_doc = [default_ref_doc sampleBody.ident] ∧
      sampleCgDoc.ref_doc =
        ([Entry.nameValue REF_DOC (Lit.str "a")].map docOf).flatten) :=
  ⟨(claim_C9_reference_doc_default [] Params.default sampleBody sampleCg rfl
      (by decide)).1 rfl,
    (claim_C9_reference_doc_default [Entry.nameValue REF_DOC (Lit.str "a")]
      { Params.default with ref_doc := [Lit.str "a"] } sampleBody sampleCgDoc
      (by decide) (by decide)).2 (by decide)⟩

end Codegen
